import Mathlib

set_option autoImplicit false
set_option maxRecDepth 8000

namespace SopAnalyzer

/-! Shallow embedding of the offline document-analysis subsystem of the
SOP automation analyzer: the prompt budgeter, the JSON response extractor,
the local inference runner's exit handling, the analyzer pipeline's
insufficient-text gate and schema validation, the progress plumbing, and
the two resource-pack update modules
(`offlinePackUpdater.js` and `offlineResourcesInstaller.js`).

Strings are modelled as Lean `String`s; where proofs need list reasoning we
pass through `String.data` (a `List Char`).  JavaScript's `Math.floor` of a
float product `B * 0.7` is modelled as the exact rational floor `7 * B / 10`
(the two agree at every budget exercised in this file; the float can differ
from the exact value only at rare boundary multiples, and all concrete
inputs used below were checked against binary64 semantics). -/

/-- Decidable equality for `Except`, so that concrete runs can be checked
by `decide`. -/
instance {ε α : Type} [DecidableEq ε] [DecidableEq α] : DecidableEq (Except ε α) :=
  fun x y =>
    match x, y with
    | .ok a, .ok b =>
      if h : a = b then .isTrue (by rw [h]) else
        .isFalse (by intro hc; injection hc; exact h (by assumption))
    | .error a, .error b =>
      if h : a = b then .isTrue (by rw [h]) else
        .isFalse (by intro hc; injection hc; exact h (by assumption))
    | .ok _, .error _ => .isFalse (by intro hc; injection hc)
    | .error _, .ok _ => .isFalse (by intro hc; injection hc)

/-- One page of extracted PDF text, as produced by `extractPdfPagesText`
(`pdfTextExtractor.js`): a 1-indexed page number and the
whitespace-normalized text layer. -/
structure Page where
  pageNumber : Nat
  text : String
deriving Repr, DecidableEq

/-! ### Prompt budgeter (`offlineAnalyzer.js`, `buildPrompt`) -/

/-- `APPROX_CHARS_PER_TOKEN` from `offlineAnalyzer.js`. -/
def APPROX_CHARS_PER_TOKEN : Nat := 4

/-- `SAFETY_TOKENS` from `offlineAnalyzer.js`. -/
def SAFETY_TOKENS : Nat := 256

/-- The fixed instruction header of `buildPrompt` (`offlineAnalyzer.js`),
transcribed line by line; the source joins these lines with a newline.
Literal braces are written with hexadecimal escapes. -/
def promptHeaderLines : List String :=
  [ "You are an Expert Pharmaceutical Manufacturing Process Optimization Specialist.",
    "",
    "Task: Analyze the following SOP (PDF text extracted per page) and return ONLY a single JSON object.",
    "Requirements:",
    "- Output MUST be valid JSON (no markdown, no commentary).",
    "- Output MUST match the JSON template below (same keys and structure).",
    "- Use proper JSON types: strings MUST be quoted, numbers MUST be numbers.",
    "- Every automation opportunity MUST include sopReference.stepIdentifier and sopReference.pageNumber (1-indexed).",
    "",
    "JSON template (fill in values; arrays may be empty if not applicable):",
    "\x7b",
    "  \"executiveSummary\": \x7b",
    "    \"sopTitle\": \"\",",
    "    \"complexityScore\": \"\",",
    "    \"processEfficiencyRating\": \"\",",
    "    \"totalManualTouchpoints\": 0,",
    "    \"automationPotentialScore\": \"\",",
    "    \"timeSavingsEstimate\": \"\",",
    "    \"errorReductionProjection\": \"\",",
    "    \"complianceRiskMitigation\": \"\",",
    "    \"implementationPriority\": \"\"",
    "  \x7d,",
    "  \"detailedAnalysis\": \x7b",
    "    \"currentState\": \x7b",
    "      \"processBreakdown\": [],",
    "      \"manualTouchpointInventory\": [],",
    "      \"dataFlowMapping\": \"\",",
    "      \"bottleneckIdentification\": \"\"",
    "    \x7d,",
    "    \"automationOpportunities\": [",
    "      \x7b",
    "        \"opportunityCategory\": \"\",",
    "        \"sopReference\": \x7b \"stepIdentifier\": \"\", \"pageNumber\": 1 \x7d,",
    "        \"currentManualProcess\": \"\",",
    "        \"proposedAutomationSolution\": \"\",",
    "        \"technologyRequired\": \"\",",
    "        \"implementationComplexity\": \"Low\",",
    "        \"roiPotential\": \"Low\",",
    "        \"complianceImpact\": \"\",",
    "        \"timelineEstimate\": \"\"",
    "      \x7d",
    "    ],",
    "    \"implementationRoadmap\": [",
    "      \x7b \"phase\": \"\", \"description\": \"\" \x7d",
    "    ],",
    "    \"technicalRequirements\": \x7b",
    "      \"platformRequirements\": \"\",",
    "      \"trainingRequirements\": \"\",",
    "      \"budgetEstimate\": \"\",",
    "      \"riskMitigation\": \"\"",
    "    \x7d",
    "  \x7d",
    "\x7d",
    "",
    "SOP content (page-delimited):" ]

/-- The assembled header string (`header` in `buildPrompt`). -/
def promptHeader : String := String.intercalate "\n" promptHeaderLines

/-- One page-delimited body section
(the template literal pushed onto `bodyParts`). -/
def pageSection (p : Page) : String :=
  "\n--- PAGE " ++ toString p.pageNumber ++ " ---\n" ++ p.text

/-- The untruncated assembly `full = header + bodyParts.join('')`
as a character list. -/
def promptAssembly (pages : List Page) : List Char :=
  (promptHeader ++ String.join (pages.map pageSection)).data

/-- `maxPromptTokens = Math.max(512, ctxSize - nPredict - SAFETY_TOKENS)`.
JavaScript computes the inner difference over signed numbers; when it is
negative the `max` clamps to 512, which coincides with Lean's truncated
`Nat` subtraction followed by `max`. -/
def maxPromptTokens (ctxSize nPredict : Nat) : Nat :=
  max 512 (ctxSize - nPredict - SAFETY_TOKENS)

/-- `maxPromptChars = maxPromptTokens * APPROX_CHARS_PER_TOKEN`. -/
def maxPromptChars (ctxSize nPredict : Nat) : Nat :=
  maxPromptTokens ctxSize nPredict * APPROX_CHARS_PER_TOKEN

/-- The separator-plus-marker text inserted between head and tail on
truncation: the template literal contributes a blank line on either side of
`[TRUNCATED TO FIT CONTEXT]`. -/
def truncationMarker : List Char := "\n\n[TRUNCATED TO FIT CONTEXT]\n\n".data

/-- `buildPrompt` from `offlineAnalyzer.js`: return the full assembly when
it fits the character budget, otherwise keep the first `⌊0.7·B⌋` and last
`⌊0.3·B⌋` characters around the truncation marker (`full.slice(0, …)` and
`full.slice(-…)`). -/
def buildPrompt (pages : List Page) (ctxSize nPredict : Nat) : List Char :=
  let full := promptAssembly pages
  let B := maxPromptChars ctxSize nPredict
  if full.length ≤ B then full
  else
    full.take (7 * B / 10) ++ truncationMarker ++ full.drop (full.length - 3 * B / 10)

/-! ### Response extractor (`llamaRunner` file, `extractJsonObject`) -/

/-- JavaScript `\s` for the ASCII inputs exercised here: space, tab,
carriage return, newline (JS additionally matches form feed, vertical tab
and Unicode spaces, which never occur in this development). -/
def wsChar (c : Char) : Bool :=
  c = ' ' ∨ c = '\t' ∨ c = '\r' ∨ c = '\n'

/-- Trim `wsChar` characters from the left end of a character list. -/
def trimLeftChars (l : List Char) : List Char := l.dropWhile wsChar

/-- Trim `wsChar` characters from the right end of a character list. -/
def trimRightChars (l : List Char) : List Char :=
  (l.reverse.dropWhile wsChar).reverse

/-- `String.prototype.trim` (and the `\s*…\s*` trimming performed by the
fence regex): drop whitespace from both ends. -/
def jsTrimChars (l : List Char) : List Char := trimLeftChars (trimRightChars l)

/-- Whether `pat` occurs in `hay` starting at its head, comparing via `eq`. -/
def matchesAt (eq : Char → Char → Bool) : List Char → List Char → Bool
  | _, [] => true
  | [], _ :: _ => false
  | h :: hs, p :: ps => eq h p && matchesAt eq hs ps

/-- Index of the leftmost occurrence of `pat` in `hay` under `eq`
(`String.prototype.match` finds the leftmost match). -/
def findSub (eq : Char → Char → Bool) : List Char → List Char → Option Nat
  | [], pat => if pat.isEmpty then some 0 else none
  | h :: hs, pat =>
    if matchesAt eq (h :: hs) pat then some 0
    else (findSub eq hs pat).map (· + 1)

/-- Case-sensitive character comparison. -/
def charEq (a b : Char) : Bool := a = b

/-- Case-insensitive character comparison (the `i` flag of the first fence
regex). -/
def charEqCI (a b : Char) : Bool := a.toLower = b.toLower

/-- Model of the fenced-code-block stripping in `extractJsonObject`:
`text.match(/```json\s*([\s\S]*?)\s*```/i) || text.match(/```\s*([\s\S]*?)\s*```/)`.
The lazy group together with leftmost matching means: take the text between
the first opening fence and the first closing fence after it, trimmed of
surrounding whitespace.  If a fence regex has no match the next alternative
(and finally the raw text) is used. -/
def fenceCapture (eq : Char → Char → Bool) (opener : List Char)
    (text : List Char) : Option (List Char) :=
  match findSub eq text opener with
  | none => none
  | some i =>
    let after := text.drop (i + opener.length)
    match findSub charEq after "```".data with
    | none => none
    | some j => some (jsTrimChars (after.take j))

/-- `const source = fenceMatch ? fenceMatch[1] : text`. -/
def stripFence (text : List Char) : List Char :=
  match fenceCapture charEqCI "```json".data text with
  | some inner => inner
  | none =>
    match fenceCapture charEq "```".data text with
    | some inner => inner
    | none => text

/-- Index of the first occurrence of `c` (`String.prototype.indexOf`). -/
def idxOf (l : List Char) (c : Char) : Option Nat :=
  findSub charEq l [c]

/-- Index of the last occurrence of `c` (`String.prototype.lastIndexOf`). -/
def lastIdxOf (l : List Char) (c : Char) : Option Nat :=
  (idxOf l.reverse c).map (fun i => l.length - 1 - i)

/-- The depth-tracked scan of `extractJsonObject`, started at the first
`'{'`:  string literals (with backslash escapes) are non-structural; outside
strings `'{'` increments and `'}'` decrements the depth, and the scan stops
at the first character after which the depth is zero.  Mirrors the loop body
order: the in-string cases, then the opening quote (which `continue`s past
the depth check), then the braces and the `depth === 0` test.  Returns the
offset of the stopping character from the scan start.  The JS depth counter
is a signed number, hence `Int`. -/
def braceDelta (c : Char) (depth : Int) : Int :=
  if c = '{' then depth + 1 else if c = '}' then depth - 1 else depth

/-- The scan loop itself; the two `if` statements updating `depth` are
`braceDelta` above. -/
def scanClose : List Char → Int → Bool → Bool → Nat → Option Nat
  | [], _, _, _, _ => none
  | c :: rest, depth, inString, escaped, i =>
    if inString then
      if escaped then scanClose rest depth true false (i + 1)
      else if c = '\\' then scanClose rest depth true true (i + 1)
      else if c = '"' then scanClose rest depth false false (i + 1)
      else scanClose rest depth true false (i + 1)
    else if c = '"' then scanClose rest depth true false (i + 1)
    else if braceDelta c depth = 0 then some i
    else scanClose rest (braceDelta c depth) false false (i + 1)

/-- `extractJsonObject` from the llama-runner module: strip a fenced code
block, find the first `'{'`, run the depth-tracked scan; on success return
the slice up to the matching close brace, otherwise fall back to the slice
from the first `'{'` to the last `'}'` when such a slice is non-degenerate
(`last > start`), and fail otherwise. -/
def extractJsonObject (text : List Char) : Except String (List Char) :=
  let source := stripFence text
  match idxOf source '{' with
  | none => .error "Model output did not contain a JSON object."
  | some start =>
    match scanClose (source.drop start) 0 false false 0 with
    | some off => .ok ((source.drop start).take (off + 1))
    | none =>
      match lastIdxOf source '}' with
      | some last =>
        if start < last then .ok ((source.drop start).take (last - start + 1))
        else .error "Model output did not contain a complete JSON object."
      | none => .error "Model output did not contain a complete JSON object."

/-! ### Local inference runner exit handling (`runLlamaCli`) -/

/-- `String.prototype.trim` on a `String`. -/
def jsTrimS (s : String) : String := ⟨jsTrimChars s.data⟩

/-- The special-cased Windows remediation message for exit code
`3221225781` (`0xC0000135`, STATUS_DLL_NOT_FOUND): three sentences joined
with single spaces (`[...].join(' ')`). -/
def dllNotFoundMessage : String :=
  "llama.cpp failed to start (missing DLL dependencies). "
    ++ "This usually means the offline pack only contained the EXE but not the required adjacent DLLs, or it was a CUDA build missing CUDA runtime DLLs. "
    ++ "Fix: regenerate/reinstall the offline pack so `offline-resources/llama/win-x64/` includes the EXE *and* all sibling .dll files from the llama.cpp release zip, then retry."

/-- The `close` handler of the llama subprocess in `runLlamaCli`: exit code
`0` resolves with the captured stdout; on Windows the STATUS_DLL_NOT_FOUND
code rejects with the remediation message; any other non-zero code rejects
with `` `llama.cpp exited with code ${code}. ${stderr}`.trim() ``. -/
def runLlamaCliOnClose (isWin32 : Bool) (code : Int) (stdout stderr : String) :
    Except String String :=
  if code = 0 then .ok stdout
  else if isWin32 ∧ code = 3221225781 then .error dllNotFoundMessage
  else .error (jsTrimS ("llama.cpp exited with code " ++ toString code ++ ". " ++ stderr))

/-! ### Progress events: extractor vs analyzer (`pdfTextExtractor.js`,
`offlineAnalyzer.js`) -/

/-- The per-page progress payload emitted by `extractPdfPagesText`:
`onProgress({ stage: 'extract', pageNumber, totalPages })`. -/
structure ExtractProgressEvent where
  stage : String
  pageNumber : Nat
  totalPages : Nat
deriving Repr, DecidableEq

/-- The sequence of per-page events `extractPdfPagesText` emits for a
document of `numPages` pages (one per page, in order, before each page is
read). -/
def extractorEvents (numPages : Nat) : List ExtractProgressEvent :=
  (List.range numPages).map (fun i => ⟨"extract", i + 1, numPages⟩)

/-- The payload the analyzer re-emits for a forwarded extraction event. -/
structure AnalyzerProgressEvent where
  stage : String
  percent : Nat
  pageNumber : Nat
  totalPages : Nat
deriving Repr, DecidableEq

/-- `Math.round((pageNumber / totalPages) * percentSpan)` over naturals:
round-half-up of `pageNumber * span / totalPages`. -/
def roundedPageFraction (pageNumber totalPages span : Nat) : Nat :=
  (2 * pageNumber * span + totalPages) / (2 * totalPages)

/-- The `onProgress` handler `analyzePdfAtPath` passes to the first
`extractPdfPagesText` call: events whose `stage` is not `'extracting'` are
dropped (`if (stage !== 'extracting') return`), the rest are re-emitted with
a 0–30% progress value. -/
def analyzerExtractHandler (e : ExtractProgressEvent) :
    Option AnalyzerProgressEvent :=
  if e.stage ≠ "extracting" then none
  else
    let pct := if e.totalPages ≠ 0 then roundedPageFraction e.pageNumber e.totalPages 30 else 0
    some ⟨"extracting", pct, e.pageNumber, e.totalPages⟩

/-- The handler passed to the OCR re-extraction call (35–50% band); it
filters on the same `stage !== 'extracting'` test. -/
def analyzerOcrExtractHandler (e : ExtractProgressEvent) :
    Option AnalyzerProgressEvent :=
  if e.stage ≠ "extracting" then none
  else
    let pct := 35 + (if e.totalPages ≠ 0 then roundedPageFraction e.pageNumber e.totalPages 15 else 0)
    some ⟨"extracting", pct, e.pageNumber, e.totalPages⟩

/-- The per-page extraction events actually forwarded to the analyzer's
caller for a `numPages`-page document. -/
def forwardedExtractionEvents (numPages : Nat) : List AnalyzerProgressEvent :=
  (extractorEvents numPages).filterMap analyzerExtractHandler

/-- The per-page events forwarded from the OCR re-extraction pass. -/
def forwardedOcrExtractionEvents (numPages : Nat) : List AnalyzerProgressEvent :=
  (extractorEvents numPages).filterMap analyzerOcrExtractHandler

/-! ### Report schema (`reportSchema` module, zod) and the analyzer
pipeline (`offlineAnalyzer.js`, `analyzePdfAtPath`) -/

/-- `sopReference` of an automation opportunity.  zod declares
`pageNumber: z.number().int().positive()`; an integer field models the
`.int()` refinement, `.positive()` is checked by the validator below. -/
structure SopReference where
  stepIdentifier : String
  pageNumber : Int
deriving Repr, DecidableEq

/-- One element of `automationOpportunities` (`AutomationOpportunitySchema`). -/
structure AutomationOpportunity where
  opportunityCategory : String
  sopReference : SopReference
  currentManualProcess : String
  proposedAutomationSolution : String
  technologyRequired : String
  implementationComplexity : String
  roiPotential : String
  complianceImpact : String
  timelineEstimate : String
deriving Repr, DecidableEq

/-- `ExecutiveSummarySchema`. -/
structure ExecutiveSummary where
  sopTitle : String
  complexityScore : String
  processEfficiencyRating : String
  totalManualTouchpoints : Int
  automationPotentialScore : String
  timeSavingsEstimate : String
  errorReductionProjection : String
  complianceRiskMitigation : String
  implementationPriority : String
deriving Repr, DecidableEq

/-- `CurrentStateSchema`. -/
structure CurrentState where
  processBreakdown : List String
  manualTouchpointInventory : List String
  dataFlowMapping : String
  bottleneckIdentification : String
deriving Repr, DecidableEq

/-- `ImplementationPhaseSchema`. -/
structure ImplementationPhase where
  phase : String
  description : String
deriving Repr, DecidableEq

/-- `TechnicalRequirementsSchema`. -/
structure TechnicalRequirements where
  platformRequirements : String
  trainingRequirements : String
  budgetEstimate : String
  riskMitigation : String
deriving Repr, DecidableEq

/-- The `detailedAnalysis` object of `AnalysisReportSchema`. -/
structure DetailedAnalysis where
  currentState : CurrentState
  automationOpportunities : List AutomationOpportunity
  implementationRoadmap : List ImplementationPhase
  technicalRequirements : TechnicalRequirements
deriving Repr, DecidableEq

/-- `AnalysisReportSchema`. -/
structure AnalysisReport where
  executiveSummary : ExecutiveSummary
  detailedAnalysis : DetailedAnalysis
deriving Repr, DecidableEq

/-- The value-level refinements `AutomationOpportunitySchema` imposes beyond
typing: `pageNumber` positive, and the two enum domains
`['Low', 'Medium', 'High']`. -/
def opportunityValid (o : AutomationOpportunity) : Bool :=
  decide (0 < o.sopReference.pageNumber)
    && (o.implementationComplexity = "Low" ∨ o.implementationComplexity = "Medium"
          ∨ o.implementationComplexity = "High")
    && (o.roiPotential = "Low" ∨ o.roiPotential = "Medium" ∨ o.roiPotential = "High")

/-- The value-level refinements of `AnalysisReportSchema.safeParse` on an
already-shaped value: `totalManualTouchpoints` is a non-negative integer and
every automation opportunity passes `opportunityValid`.  (All other fields
carry only typing constraints, which the structure types enforce.) -/
def reportValid (r : AnalysisReport) : Bool :=
  decide (0 ≤ r.executiveSummary.totalManualTouchpoints)
    && r.detailedAnalysis.automationOpportunities.all opportunityValid

/-- Structured failure of the analyzer pipeline, tagging the two `throw`
sites of `analyzePdfAtPath` with their exact message strings. -/
inductive AnalyzeError where
  | extractionInsufficient (message : String)
  | invalidSchema (message : String)
deriving Repr, DecidableEq

/-- `pages.reduce((sum, p) => sum + (p.text ? p.text.length : 0), 0)`.
(An empty string is falsy and contributes 0, which `length = 0` matches.) -/
def totalChars (pages : List Page) : Nat :=
  pages.foldl (fun sum p => sum + p.text.data.length) 0

/-- `pages.reduce((sum, p) => sum + (p.text && p.text.trim().length > 0 ? 1 : 0), 0)`. -/
def nonEmptyPages (pages : List Page) : Nat :=
  pages.foldl (fun sum p => sum + (if 0 < (jsTrimChars p.text.data).length then 1 else 0)) 0

/-- The image-only trigger of `analyzePdfAtPath`:
`nonEmptyPages === 0 || totalChars < 500`. -/
def insufficientText (pages : List Page) : Bool :=
  nonEmptyPages pages = 0 || totalChars pages < 500

/-- The first three sentences of the insufficient-extraction error
(`base.join` contributes one space between sentences; written here with the
trailing separator so that the case-specific continuation can be appended). -/
def insufficientBase (tc ne pc : Nat) : String :=
  "Offline analysis could not extract readable text from this PDF. "
    ++ s!"Extracted text: {tc} characters across {ne}/{pc} pages. "
    ++ "This usually means the PDF is scanned (image-only) or otherwise has no selectable text layer. "

/-- The continuation when OCR was available (`ocrAvailable` truthy):
two sentences joined with single spaces. -/
def ocrRanContinuation : String :=
  "An OCR attempt was made using `ocrmypdf`, but the resulting text was still too small. "
    ++ "Fix options: (1) Use Online mode for this document, or (2) run OCR externally to create a searchable PDF, then retry Offline mode."

/-- The continuation when no OCR tool was available: three sentences joined
with single spaces. -/
def noOcrContinuation : String :=
  "Fix options: (1) Use Online mode for this document, or (2) install an OCR tool and retry. "
    ++ "To enable automatic offline OCR fallback, install `ocrmypdf` and ensure it is on PATH, then retry. "
    ++ "Install guide: https://ocrmypdf.readthedocs.io/en/latest/installation.html"

/-- `base.concat(next).join(' ')` for the insufficient-extraction error. -/
def insufficientMessage (tc ne pc : Nat) (ocrAvailable : Bool) : String :=
  insufficientBase tc ne pc ++ (if ocrAvailable then ocrRanContinuation else noOcrContinuation)

/-- The analyzer pipeline's environment: the effects `analyzePdfAtPath`
consumes, made explicit.  `pages` is the result of the initial
`extractPdfPagesText`; `ocrAvailable` is `hasOcrMyPdf()`; `ocrPages` is the
re-extraction result when `ocrToSearchablePdfBestEffort` produced a
searchable PDF (`none` models it returning `null`); `modelData` is the
JSON value recovered from the local model's output (the `runLlamaJson`
stage, taken as given since this claim set concerns the stages around it). -/
structure AnalyzeEnv where
  pages : List Page
  ocrAvailable : Bool
  ocrPages : Option (List Page)
  modelData : AnalysisReport

/-- The final stage of `analyzePdfAtPath`: `AnalysisReportSchema.safeParse`
and the invalid-schema throw. -/
def validateReport (data : AnalysisReport) : Except AnalyzeError AnalysisReport :=
  if reportValid data then .ok data
  else .error (.invalidSchema "Offline analysis produced invalid JSON schema.")

/-- `analyzePdfAtPath` (offline analyzer, progress-reporting variant),
from extraction onward: apply the image-only gate with the best-effort OCR
fallback, then hand the (unmodelled) prompt/model stages' result to schema
validation. -/
def analyzePdfModel (env : AnalyzeEnv) : Except AnalyzeError AnalysisReport :=
  let pages := env.pages
  if insufficientText pages then
    let pages2 :=
      if env.ocrAvailable then
        match env.ocrPages with
        | some p2 => p2
        | none => pages
      else pages
    if insufficientText pages2 then
      .error (.extractionInsufficient
        (insufficientMessage (totalChars pages2) (nonEmptyPages pages2) pages2.length
          env.ocrAvailable))
    else validateReport env.modelData
  else validateReport env.modelData

/-! ### Delta updater (`offlinePackUpdater.js`) -/

/-- One entry of the remote manifest's `files` array:
`{ path, sha256, size }`.  The source guards each entry with
`if (!f?.path || !f?.sha256) continue;`; a missing or empty field is
modelled as the empty string (both are falsy). -/
structure UpdFile where
  path : String
  sha256 : String
  size : Option Nat
deriving Repr, DecidableEq

/-- The guard `f?.path && f?.sha256` on a manifest file entry. -/
def updFileValid (f : UpdFile) : Bool :=
  f.path ≠ "" && f.sha256 ≠ ""

/-- The remote manifest fetched by `fetchRemoteManifest`
(shape-validated there: `version`, `baseUrl`, `files`). -/
structure UpdManifest where
  version : String
  baseUrl : String
  files : List UpdFile
deriving Repr, DecidableEq

/-- Environment of one updater run, making the effects explicit:
`hash` is SHA-256 over file contents (contents are modelled as strings);
`disk` maps a base-directory-relative path to the content of the file
there, `none` when absent (`fs.existsSync` false; `sha256File` is assumed
to succeed on present files); `fetch` maps a URL to the bytes the server
returns, `none` when the download fails; `localManifest` is
`readLocalManifest`'s result (`none` for absent or corrupt); `remote` is
the already-fetched remote manifest. -/
structure UpdEnv where
  hash : String → String
  disk : String → Option String
  fetch : String → Option String
  localManifest : Option UpdManifest
  remote : UpdManifest

/-- `remote.baseUrl.replace(/\/$/, '')`: drop one trailing slash. -/
def stripTrailingSlash (s : String) : String :=
  match s.data.reverse with
  | '/' :: rest => ⟨rest.reverse⟩
  | _ => s

/-- `t.path.replace(/^\//, '')`: drop one leading slash. -/
def stripLeadingSlash (s : String) : String :=
  match s.data with
  | '/' :: rest => ⟨rest⟩
  | _ => s

/-- The download URL assembled for a manifest file:
`` `${remote.baseUrl.replace(/\/$/, '')}/${t.path.replace(/^\//, '')}` ``. -/
def updFileUrl (baseUrl : String) (f : UpdFile) : String :=
  stripTrailingSlash baseUrl ++ "/" ++ stripLeadingSlash f.path

/-- Whether a manifest file is missing or changed on disk — the shared
criterion of `checkOfflinePackUpdates` and `applyOfflinePackUpdate` (both
loops compute it identically): the destination does not exist, or its
SHA-256 digest differs from the manifest hash. -/
def updFileNeedsUpdate (env : UpdEnv) (f : UpdFile) : Bool :=
  match env.disk f.path with
  | none => true
  | some content => env.hash content ≠ f.sha256

/-- The list of files to download: valid manifest entries that are missing
or changed. -/
def updTasks (env : UpdEnv) : List UpdFile :=
  (env.remote.files.filter updFileValid).filter (updFileNeedsUpdate env)

/-- Result of `checkOfflinePackUpdates` (the fields this claim set uses;
`filesToUpdate` keeps the whole entry where the source maps it to
`{ path, size }`). -/
structure CheckUpdatesResult where
  localVersion : Option String
  remoteVersion : String
  updateAvailable : Bool
  filesToUpdate : List UpdFile
deriving Repr, DecidableEq

/-- `checkOfflinePackUpdates` from `offlinePackUpdater.js`:
`updateAvailable: toUpdate.length > 0 || localVersion !== remoteVersion`. -/
def checkOfflinePackUpdates (env : UpdEnv) : CheckUpdatesResult :=
  let toUpdate := updTasks env
  { localVersion := env.localManifest.map (·.version)
    remoteVersion := env.remote.version
    updateAvailable := decide (0 < toUpdate.length)
      || env.localManifest.map (·.version) ≠ some env.remote.version
    filesToUpdate := toUpdate }

/-- Observable outcome of one `applyOfflinePackUpdate` run: the final
result (the thrown error's message, or success), the final disk state, the
local manifest written at the end of a fully successful run (`none` when
the run aborted first), and the paths downloaded, in order. -/
structure ApplyOutcome where
  result : Except String Unit
  disk : String → Option String
  manifestWritten : Option UpdManifest
  downloads : List String

/-- A disk after writing `content` at `path`. -/
def diskWrite (disk : String → Option String) (path content : String) :
    String → Option String :=
  fun q => if q = path then some content else disk q

/-- The download-verify loop of `applyOfflinePackUpdate`: for each task in
order, download into the destination (a failed download rejects and aborts
the run), then compare `sha256File(dest)` with the manifest hash and throw
`` `Offline pack update failed integrity check for ${t.path}` `` on
mismatch. -/
def applyLoop (env : UpdEnv) :
    List UpdFile → (String → Option String) → List String →
    (Except String Unit) × (String → Option String) × List String
  | [], disk, downloads => (.ok (), disk, downloads)
  | t :: ts, disk, downloads =>
    match env.fetch (updFileUrl env.remote.baseUrl t) with
    | none =>
      (.error s!"Download failed for {t.path}", disk, downloads)
    | some content =>
      let disk' := diskWrite disk t.path content
      let downloads' := downloads ++ [t.path]
      if env.hash content ≠ t.sha256 then
        (.error s!"Offline pack update failed integrity check for {t.path}", disk', downloads')
      else applyLoop env ts disk' downloads'

/-- `applyOfflinePackUpdate` from `offlinePackUpdater.js`: build the task
list (missing-or-changed files), run the download-verify loop, and only
after the whole loop succeeds write the remote manifest as the new local
`manifest.json`. -/
def applyOfflinePackUpdate (env : UpdEnv) : ApplyOutcome :=
  let (res, disk, downloads) := applyLoop env (updTasks env) env.disk []
  match res with
  | .ok () =>
    { result := .ok (), disk := disk, manifestWritten := some env.remote,
      downloads := downloads }
  | .error e =>
    { result := .error e, disk := disk, manifestWritten := none,
      downloads := downloads }

/-! ### Component-based installer/updater (`offlineResourcesInstaller.js`) -/

/-- One manifest component: `{ name, type, url, path, version?, sha256?,
extractTo? }`.  `type`, `version`, `sha256` and `extractTo` may be absent
(`undefined`); required string fields model absent/empty (both falsy in the
source's guards) as the empty string. -/
structure Component where
  name : String
  url : String
  path : String
  type : Option String
  version : Option String
  sha256 : Option String
  extractTo : Option String
deriving Repr, DecidableEq

/-- The remote manifest of the installer module: a `version` and component
lists under `components.common` and `components.platform[platformKey]`. -/
structure InstManifest where
  version : Option String
  common : List Component
  platform : List (String × List Component)
deriving Repr, DecidableEq

/-- `[...(remote?.components?.common || []), ...(platform[platformKey] || [])]`. -/
def applicableComponents (m : InstManifest) (platformKey : String) : List Component :=
  m.common ++ ((m.platform.lookup platformKey).getD [])

/-- What `updateOfflineResources` records per installed component:
`{ name, url, path, type: c.type || 'file', version: c.version || null,
sha256: c.sha256 || null }`. -/
structure InstalledComponent where
  name : String
  url : String
  path : String
  type : String
  version : Option String
  sha256 : Option String
deriving Repr, DecidableEq

/-- The record written for a component. -/
def componentRecord (c : Component) : InstalledComponent :=
  { name := c.name, url := c.url, path := c.path, type := c.type.getD "file",
    version := c.version, sha256 := c.sha256 }

/-- The local `.offline-pack.json` manifest: `{ version, components }` with
components keyed by name. -/
structure LocalInstManifest where
  version : Option String
  components : List (String × InstalledComponent)
deriving Repr, DecidableEq

/-- JavaScript strict inequality `prev.x !== c.x` between a recorded
optional field (where `none` is the recorded JSON `null`) and a manifest
optional field (where `none` is `undefined`): equal only when both are
present with the same value — in particular `null !== undefined` is true,
so two absent fields still compare as different. -/
def jsStrictNeq (prev c : Option String) : Bool :=
  match prev, c with
  | some a, some b => a ≠ b
  | _, _ => true

/-- The guard `c && c.name && c.url && c.path` of `checkOfflinePackUpdate`. -/
def componentValid (c : Component) : Bool :=
  c.name ≠ "" && c.url ≠ "" && c.path ≠ ""

/-- The per-component update criterion of `checkOfflinePackUpdate`:
`!prev || prev.url !== c.url || prev.sha256 !== c.sha256 ||
prev.version !== c.version`. -/
def componentNeedsUpdate (localComponents : List (String × InstalledComponent))
    (c : Component) : Bool :=
  match localComponents.lookup c.name with
  | none => true
  | some prev =>
    prev.url ≠ c.url || jsStrictNeq prev.sha256 c.sha256
      || jsStrictNeq prev.version c.version

/-- Environment of the installer module's operations: `installed` is
`getOfflineResourcesStatus().installed` (model file and llama binary both
present); `localManifest` is the parsed `.offline-pack.json` (or `none`);
`remote` is `fetchJson(manifestUrl)`'s result (`none` when the fetch
threw); `fetch` maps a component URL to downloaded bytes (`none` = download
failure); `zipFetch`/`zipHasResourcesRoot` describe the legacy full-pack
download and whether its archive contains the top-level `resources/`
folder. -/
structure InstEnv where
  installed : Bool
  localManifest : Option LocalInstManifest
  remote : Option InstManifest
  platformKey : String
  fetch : String → Option String
  zipFetch : Option String
  zipHasResourcesRoot : Bool

/-- Result of `checkOfflinePackUpdate` (installer module). -/
structure CheckInstResult where
  okFlag : Bool
  installedVersion : Option String
  latestVersion : Option String
  needsUpdate : Bool
  componentsToUpdate : List String
deriving Repr, DecidableEq

/-- `checkOfflinePackUpdate` from `offlineResourcesInstaller.js`.  Note
`needsUpdate = !status.installed || (latestVersion && localVersion !==
latestVersion)` — the component comparison feeds only `componentsToUpdate`. -/
def checkOfflinePackUpdate (env : InstEnv) : CheckInstResult :=
  let localVersion := env.localManifest.bind (·.version)
  match env.remote with
  | none =>
    { okFlag := false, installedVersion := localVersion, latestVersion := none,
      needsUpdate := !env.installed, componentsToUpdate := [] }
  | some remote =>
    let latest := remote.version
    let comps := applicableComponents remote env.platformKey
    let localComponents := (env.localManifest.map (·.components)).getD []
    { okFlag := true
      installedVersion := localVersion
      latestVersion := latest
      needsUpdate := !env.installed || (latest.isSome && localVersion ≠ latest)
      componentsToUpdate :=
        ((comps.filter componentValid).filter
            (componentNeedsUpdate localComponents)).map (·.name) }

/-- Observable outcome of `updateOfflineResources` /
`installOfflineResources`: `destWrites` are the writes into the
user-writable destination directory, in order — a `file`-typed component is
written at its `path`, a `zip`-typed component is extracted under its
`extractTo` (modelled as one write of the archive contents at that
 prefix); the legacy full-pack path's wholesale remove-then-copy is
recorded by `destReplaced`. -/
structure InstOutcome where
  result : Except String Unit
  destWrites : List (String × String)
  localManifestWritten : Option LocalInstManifest
  downloads : List String
  destReplaced : Bool

/-- The component download loop of `updateOfflineResources`: download each
applicable component in order (no hash verification anywhere in this
function), record a destination write and the component's manifest entry;
a failed download throws and aborts the loop. -/
def instUpdLoop (env : InstEnv) :
    List Component → List (String × String) → List String →
    List (String × InstalledComponent) →
    (Except String Unit) × List (String × String) × List String
      × List (String × InstalledComponent)
  | [], writes, downloads, recorded => (.ok (), writes, downloads, recorded)
  | c :: cs, writes, downloads, recorded =>
    match env.fetch c.url with
    | none => (.error s!"Download failed for {c.name}", writes, downloads, recorded)
    | some content =>
      let target := if c.type = some "zip" then c.extractTo.getD "" else c.path
      instUpdLoop env cs (writes ++ [(target, content)]) (downloads ++ [c.name])
        (recorded ++ [(c.name, componentRecord c)])

/-- Outcome used when the modelling fuel runs out (the source contains a
genuine mutual recursion between `updateOfflineResources` and
`installOfflineResources` through the empty-components fallback; every
theorem below supplies enough fuel that this case is never reached). -/
def fuelOutcome : InstOutcome :=
  { result := .error "modelling fuel exhausted", destWrites := [],
    localManifestWritten := none, downloads := [], destReplaced := false }

mutual

/-- `installOfflineResources` from `offlineResourcesInstaller.js`: return
immediately when already installed; otherwise try the manifest-based
`updateOfflineResources` and, if that throws, fall back to the legacy
full-zip install — download the pack, extract it to a temp directory,
require the top-level `resources/` folder (throwing
`'Offline pack zip must contain a top-level resources/ folder.'` before
touching the destination), and only then wholesale-replace the
destination. -/
def installOfflineResourcesModel : Nat → InstEnv → InstOutcome
  | 0, _ => fuelOutcome
  | fuel + 1, env =>
    if env.installed then
      { result := .ok (), destWrites := [], localManifestWritten := none,
        downloads := [], destReplaced := false }
    else
      let upd := updateOfflineResourcesModel fuel env
      match upd.result with
      | .ok () => upd
      | .error _ =>
        match env.zipFetch with
        | none => { upd with result := .error "Download failed for offline pack zip" }
        | some zipContent =>
          if !env.zipHasResourcesRoot then
            { upd with
              result := .error "Offline pack zip must contain a top-level resources/ folder." }
          else
            { result := .ok (),
              destWrites := upd.destWrites ++ [("", zipContent)],
              localManifestWritten := upd.localManifestWritten,
              downloads := upd.downloads, destReplaced := true }

/-- `updateOfflineResources` from `offlineResourcesInstaller.js`: fetch the
remote manifest (a failed fetch throws), collect the applicable components;
with no components fall back to the full-zip `installOfflineResources`;
otherwise download **every** applicable component in order (the function
consults neither the local manifest nor any hash) and finally write the
local `.offline-pack.json` recording the remote version and each
component's manifest metadata. -/
def updateOfflineResourcesModel : Nat → InstEnv → InstOutcome
  | 0, _ => fuelOutcome
  | fuel + 1, env =>
    match env.remote with
    | none =>
      { result := .error "Offline pack manifest fetch failed", destWrites := [],
        localManifestWritten := none, downloads := [], destReplaced := false }
    | some remote =>
      let comps := applicableComponents remote env.platformKey
      if comps.isEmpty then installOfflineResourcesModel fuel env
      else
        match instUpdLoop env comps [] [] [] with
        | (.ok (), writes, downloads, recorded) =>
          { result := .ok (), destWrites := writes,
            localManifestWritten := some { version := remote.version, components := recorded },
            downloads := downloads, destReplaced := false }
        | (.error e, writes, downloads, _) =>
          { result := .error e, destWrites := writes,
            localManifestWritten := none, downloads := downloads,
            destReplaced := false }

end

/-! ### Concrete data used by witnesses and counterexamples -/

/-- A single page whose text is 2100 copies of `'a'` — long enough that the
assembled prompt exceeds the minimum character budget of 2048. -/
def pagesC5 : List Page := [⟨1, ⟨List.replicate 2100 'a'⟩⟩]

/-- A report whose every field is empty/zero. -/
def emptyReport : AnalysisReport :=
  { executiveSummary :=
    { sopTitle := "", complexityScore := "", processEfficiencyRating := "",
      totalManualTouchpoints := 0, automationPotentialScore := "",
      timeSavingsEstimate := "", errorReductionProjection := "",
      complianceRiskMitigation := "", implementationPriority := "" }
    detailedAnalysis :=
    { currentState :=
      { processBreakdown := [], manualTouchpointInventory := [],
        dataFlowMapping := "", bottleneckIdentification := "" }
      automationOpportunities := []
      implementationRoadmap := []
      technicalRequirements :=
      { platformRequirements := "", trainingRequirements := "",
        budgetEstimate := "", riskMitigation := "" } } }

/-- A schema-valid automation opportunity citing page 7. -/
def oppPage7 : AutomationOpportunity :=
  { opportunityCategory := "Data Entry", sopReference := ⟨"3.1", 7⟩,
    currentManualProcess := "", proposedAutomationSolution := "",
    technologyRequired := "", implementationComplexity := "Low",
    roiPotential := "Low", complianceImpact := "", timelineEstimate := "" }

/-- A schema-valid report whose only opportunity cites page 7. -/
def reportPage7 : AnalysisReport :=
  { emptyReport with
    detailedAnalysis := { emptyReport.detailedAnalysis with
      automationOpportunities := [oppPage7] } }

/-- A one-page extraction with 600 characters of text (clearing the
500-character floor). -/
def pagesC4 : List Page := [⟨1, ⟨List.replicate 600 'a'⟩⟩]

/-- Analyzer environment for the page-bound counterexample: a sufficient
one-page document whose model output cites page 7. -/
def envC4 : AnalyzeEnv :=
  { pages := pagesC4, ocrAvailable := false, ocrPages := none,
    modelData := reportPage7 }

/-- Analyzer environment for the insufficient-text witness: an empty
extraction with no OCR tool available. -/
def envC7 : AnalyzeEnv :=
  { pages := [], ocrAvailable := false, ocrPages := none,
    modelData := emptyReport }

/-- Leading chatter before the JSON object (no brace, no fence). -/
def preC6 : List Char := "Sure! Here is the JSON you asked for: ".data

/-- The spec's example object: an object whose string value contains
braces. -/
def objC6 : List Char := "\x7b\"a\": \"\x7bnot json\x7d\"\x7d".data

/-- Trailing chatter after the JSON object. -/
def postC6 : List Char := " Hope this helps.".data

/-- A source with an unterminated string literal: the depth scan never
returns to depth zero, and the salvage slice from the first `'{'` to the
last `'}'` applies. -/
def srcC6Fallback : List Char := "\x7b \"unterminated\": \"oops\x7d".data

/-- Delta-updater environment in which the one needed file downloads with
contents whose hash does not match the manifest hash. -/
def envC1 : UpdEnv :=
  { hash := fun c => "sha-" ++ c
    disk := fun _ => none
    fetch := fun u => if u = "https://host/packs/models/m.gguf" then some "evil" else none
    localManifest := none
    remote :=
      { version := "2", baseUrl := "https://host/packs",
        files := [⟨"models/m.gguf", "sha-good", some 10⟩] } }

/-- The manifest file entry of `envC1`. -/
def fileC1 : UpdFile := ⟨"models/m.gguf", "sha-good", some 10⟩

/-- Delta-updater environment in which both needed files download with the
exact contents the manifest hashes name. -/
def envC3 : UpdEnv :=
  { hash := fun c => "sha-" ++ c
    disk := fun p => if p = "models/m.gguf" then some "modelbytes" else none
    fetch := fun u =>
      if u = "https://host/packs/llama/win-x64/llama.exe" then some "exebytes"
      else if u = "https://host/packs/models/m.gguf" then some "modelbytes"
      else none
    localManifest := none
    remote :=
      { version := "3", baseUrl := "https://host/packs",
        files :=
          [ ⟨"models/m.gguf", "sha-modelbytes", some 10⟩,
            ⟨"llama/win-x64/llama.exe", "sha-exebytes", some 20⟩ ] } }

/-- A manifest component (no `sha256` check exists in
`updateOfflineResources`, so the recorded hash is whatever the manifest
said). -/
def compC1 : Component :=
  { name := "model", url := "https://host/m", path := "models/m.gguf",
    type := none, version := some "1", sha256 := some "sha-good",
    extractTo := none }

/-- Installer environment whose single component downloads contents
(`"evil"`) unrelated to its manifest `sha256`. -/
def envC1Inst : InstEnv :=
  { installed := false
    localManifest := none
    remote := some { version := some "2", common := [compC1], platform := [] }
    platformKey := "win-x64"
    fetch := fun u => if u = "https://host/m" then some "evil" else none
    zipFetch := none
    zipHasResourcesRoot := false }

/-- A component whose local record matches its manifest entry exactly
(same url, sha256 and version). -/
def compC3 : Component :=
  { name := "model", url := "https://host/m", path := "models/m.gguf",
    type := none, version := some "1", sha256 := some "abc123",
    extractTo := none }

/-- Installer environment in which `compC3` is recorded locally exactly as
the manifest describes it, so `checkOfflinePackUpdate` flags nothing. -/
def envC3Inst : InstEnv :=
  { installed := true
    localManifest := some
      { version := some "2", components := [("model", componentRecord compC3)] }
    remote := some { version := some "2", common := [compC3], platform := [] }
    platformKey := "win-x64"
    fetch := fun u => if u = "https://host/m" then some "modelbytes" else none
    zipFetch := none
    zipHasResourcesRoot := false }

/-- A component differing from its local record only in `url`. -/
def compC2 : Component :=
  { name := "model", url := "https://host/m-v2", path := "models/m.gguf",
    type := none, version := some "1", sha256 := some "abc123",
    extractTo := none }

/-- The remote manifest carrying `compC2`. -/
def remoteC2 : InstManifest :=
  { version := some "2", common := [compC2], platform := [] }

/-- Installer environment: pack installed, local and remote pack versions
equal, but `compC2`'s recorded url differs from the manifest's. -/
def envC2Inst : InstEnv :=
  { installed := true
    localManifest := some
      { version := some "2", components := [("model", componentRecord compC3)] }
    remote := some remoteC2
    platformKey := "win-x64"
    fetch := fun _ => none
    zipFetch := none
    zipHasResourcesRoot := false }

/-- Two components for the partial-update counterexample: the first
downloads fine, the second's download fails. -/
def compC8a : Component :=
  { name := "model", url := "https://host/m", path := "models/m.gguf",
    type := none, version := some "1", sha256 := some "abc123",
    extractTo := none }

/-- Second component of the partial-update counterexample. -/
def compC8b : Component :=
  { name := "llama", url := "https://host/l", path := "llama/win-x64/llama.exe",
    type := none, version := some "1", sha256 := some "def456",
    extractTo := none }

/-- Installer environment in which the manifest-based update attempt writes
one component into the destination and then fails, after which the legacy
full-zip archive turns out to lack the `resources/` root. -/
def envC8Inst : InstEnv :=
  { installed := false
    localManifest := none
    remote := some { version := some "2", common := [compC8a, compC8b], platform := [] }
    platformKey := "win-x64"
    fetch := fun u => if u = "https://host/m" then some "modelbytes" else none
    zipFetch := some "zipbytes"
    zipHasResourcesRoot := false }

/-- Installer environment whose manifest fetch fails (so the update attempt
writes nothing) and whose legacy archive lacks the `resources/` root. -/
def envC8W : InstEnv :=
  { installed := false
    localManifest := none
    remote := none
    platformKey := "win-x64"
    fetch := fun _ => none
    zipFetch := some "zipbytes"
    zipHasResourcesRoot := false }

/-! ### Helper lemmas -/

theorem dropWhile_append_of_not_all {α : Type} {p : α → Bool} {l1 l2 : List α}
    (h : ¬ ∀ x ∈ l1, p x = true) :
    (l1 ++ l2).dropWhile p = l1.dropWhile p ++ l2 := by
  rw [List.dropWhile_append]
  have hne : l1.dropWhile p ≠ [] := fun hnil => h (List.dropWhile_eq_nil_iff.mp hnil)
  simp [List.isEmpty_iff, hne]

theorem trimRight_append_of_not_all {b err : List Char}
    (h : ¬ ∀ x ∈ err, wsChar x = true) :
    trimRightChars (b ++ err) = b ++ trimRightChars err := by
  have hrev : ¬ ∀ x ∈ err.reverse, wsChar x = true := by
    intro hall; exact h (fun x hx => hall x (List.mem_reverse.mpr hx))
  unfold trimRightChars
  rw [List.reverse_append, dropWhile_append_of_not_all hrev, List.reverse_append,
    List.reverse_reverse]

theorem trimLeft_cons_of_not_ws {c : Char} {l : List Char} (hc : wsChar c = false) :
    trimLeftChars (c :: l) = c :: l := by
  simp [trimLeftChars, List.dropWhile, hc]

theorem jsTrim_all_ws {err : List Char} (h : ∀ x ∈ err, wsChar x = true) :
    jsTrimChars err = [] := by
  have : trimRightChars err = [] := by
    unfold trimRightChars
    rw [List.dropWhile_eq_nil_iff.mpr (fun x hx => h x (List.mem_reverse.mp hx))]
    rfl
  simp [jsTrimChars, this, trimLeftChars]

/-- Trimming a string whose head is a fixed non-whitespace character keeps
the trimmed tail intact somewhere inside the result. -/
theorem jsTrim_append_nonws (c : Char) (bs err : List Char)
    (hc : wsChar c = false) :
    ∃ l r, jsTrimChars ((c :: bs) ++ err) = l ++ jsTrimChars err ++ r := by
  by_cases hall : ∀ x ∈ err, wsChar x = true
  · exact ⟨jsTrimChars ((c :: bs) ++ err), [], by simp [jsTrim_all_ws hall]⟩
  · rw [jsTrimChars, trimRight_append_of_not_all hall]
    have hdecomp :
        trimRightChars err
          = (trimRightChars err).takeWhile wsChar ++ jsTrimChars err := by
      rw [jsTrimChars, trimLeftChars]
      exact (List.takeWhile_append_dropWhile wsChar (trimRightChars err)).symm
    refine ⟨c :: bs ++ (trimRightChars err).takeWhile wsChar, [], ?_⟩
    rw [List.cons_append, trimLeft_cons_of_not_ws hc]
    rw [List.append_nil]
    conv_lhs => rw [hdecomp]
    simp

/-! ### Claims -/

/-- Claim C10: the analyzer's extraction-progress handler forwards only
events whose stage equals `'extracting'`, while `extractPdfPagesText`
emits its per-page events with stage `'extract'`; hence for every page
count (at both the initial-extraction and OCR-re-extraction call sites)
the set of forwarded per-page extraction events is empty. -/
theorem extraction_progress_never_forwarded (numPages : Nat) :
    forwardedExtractionEvents numPages = []
    ∧ forwardedOcrExtractionEvents numPages = [] := by
  constructor <;>
    simp [forwardedExtractionEvents, forwardedOcrExtractionEvents, extractorEvents,
      analyzerExtractHandler, analyzerOcrExtractHandler, List.filterMap_map,
      Function.comp_def]

/-- Claim C9: a non-zero exit code of the inference subprocess always
produces an error; on Windows the STATUS_DLL_NOT_FOUND code `3221225781`
produces the special-cased bundling-remediation message, and every other
non-zero exit produces the generic message, which carries the captured
stderr (trimmed) verbatim inside it. -/
theorem runLlama_nonzero_exit_errors (isWin : Bool) (code : Int)
    (stdout stderr : String) (h : code ≠ 0) :
    (∃ e, runLlamaCliOnClose isWin code stdout stderr = .error e)
    ∧ (isWin = true → code = 3221225781 →
        runLlamaCliOnClose isWin code stdout stderr = .error dllNotFoundMessage)
    ∧ (¬(isWin = true ∧ code = 3221225781) →
        runLlamaCliOnClose isWin code stdout stderr
          = .error (jsTrimS ("llama.cpp exited with code " ++ toString code ++ ". " ++ stderr))
        ∧ ∃ l r,
            (jsTrimS ("llama.cpp exited with code " ++ toString code ++ ". " ++ stderr)).data
              = l ++ jsTrimChars stderr.data ++ r) := by
  refine ⟨?_, ?_, ?_⟩
  · unfold runLlamaCliOnClose
    rw [if_neg h]
    by_cases hw : isWin = true ∧ code = 3221225781
    · rw [if_pos hw]; exact ⟨_, rfl⟩
    · rw [if_neg hw]; exact ⟨_, rfl⟩
  · intro hwin hcode
    unfold runLlamaCliOnClose
    rw [if_neg h, if_pos ⟨hwin, hcode⟩]
  · intro hnw
    constructor
    · unfold runLlamaCliOnClose
      rw [if_neg h, if_neg hnw]
    · have hdata :
          ("llama.cpp exited with code " ++ toString code ++ ". " ++ stderr).data
            = ('l' :: ("lama.cpp exited with code ".data
                ++ ((toString code).data ++ ". ".data))) ++ stderr.data := by
        simp [String.data_append]
      have := jsTrim_append_nonws 'l'
        ("lama.cpp exited with code ".data ++ ((toString code).data ++ ". ".data))
        stderr.data (by decide)
      obtain ⟨l, r, hlr⟩ := this
      refine ⟨l, r, ?_⟩
      show jsTrimChars ("llama.cpp exited with code " ++ toString code ++ ". " ++ stderr).data
        = l ++ jsTrimChars stderr.data ++ r
      rw [hdata]
      exact hlr

/-- Witness for C9: exit code 5 on Windows yields the generic message with
the stderr text inside, and exit code 3221225781 on Windows yields the
special remediation message. -/
theorem runLlama_nonzero_exit_errors_witness :
    runLlamaCliOnClose true 5 "" "boom" = .error "llama.cpp exited with code 5. boom"
    ∧ runLlamaCliOnClose true 3221225781 "" "boom" = .error dllNotFoundMessage := by
  constructor
  · have h := (runLlama_nonzero_exit_errors true 5 "" "boom" (by decide)).2.2
      (by intro hc; exact absurd hc.2 (by decide))
    rw [h.1]
    exact congrArg Except.error (by decide)
  · exact (runLlama_nonzero_exit_errors true 3221225781 "" "boom" (by decide)).2.1 rfl rfl

/-- Claim C7: whenever extraction (after the best-effort OCR fallback)
still yields zero non-empty pages or fewer than 500 characters,
`analyzePdfAtPath` fails with the insufficient-extraction error and never
returns a report; the error message carries a continuation that is
different in the no-OCR-available and OCR-ran cases; and the
`nonEmptyPages === 0 || totalChars < 500` test is exactly the trigger —
a sufficient initial extraction goes straight to validation, and the
insufficient-extraction error can only arise from an insufficient initial
extraction. -/
theorem analyzePdf_insufficient_text (env : AnalyzeEnv) :
    (insufficientText env.pages = false →
        analyzePdfModel env = validateReport env.modelData)
    ∧ (insufficientText env.pages = true → env.ocrAvailable = false →
        analyzePdfModel env = .error (.extractionInsufficient
          (insufficientMessage (totalChars env.pages) (nonEmptyPages env.pages)
            env.pages.length false)))
    ∧ (insufficientText env.pages = true → env.ocrAvailable = true →
        insufficientText (env.ocrPages.getD env.pages) = true →
        analyzePdfModel env = .error (.extractionInsufficient
          (insufficientMessage (totalChars (env.ocrPages.getD env.pages))
            (nonEmptyPages (env.ocrPages.getD env.pages))
            (env.ocrPages.getD env.pages).length true)))
    ∧ (∀ m, analyzePdfModel env = .error (.extractionInsufficient m) →
        insufficientText env.pages = true)
    ∧ ocrRanContinuation ≠ noOcrContinuation := by
  have hval : ∀ m, validateReport env.modelData ≠ .error (.extractionInsufficient m) := by
    intro m
    unfold validateReport
    split
    · intro hc; injection hc
    · intro hc; injection hc with hmsg; injection hmsg
  refine ⟨?_, ?_, ?_, ?_, ?_⟩
  · intro h
    simp [analyzePdfModel, h]
  · intro h hocr
    simp [analyzePdfModel, h, hocr]
  · intro h hocr htwo
    cases hp : env.ocrPages with
    | none => simp [hp] at htwo; simp [analyzePdfModel, h, hocr, hp, htwo]
    | some p2 => simp [hp] at htwo; simp [analyzePdfModel, h, hocr, hp, htwo]
  · intro m hm
    by_contra hcon
    have hfalse : insufficientText env.pages = false := by
      cases hins : insufficientText env.pages
      · rfl
      · exact absurd hins hcon
    rw [show analyzePdfModel env = validateReport env.modelData by
      simp [analyzePdfModel, hfalse]] at hm
    exact hval m hm
  · decide

/-- Witness for C7: an empty extraction with no OCR tool available yields
the insufficient-extraction error with the no-OCR continuation. -/
theorem analyzePdf_insufficient_text_witness :
    analyzePdfModel envC7 = .error (.extractionInsufficient
      (insufficientMessage (totalChars envC7.pages) (nonEmptyPages envC7.pages)
        envC7.pages.length false)) :=
  (analyzePdf_insufficient_text envC7).2.1 (by decide) rfl

/-- Claim C4 (amended): every report returned by `analyzePdfAtPath` is its
model output validated by the schema, whose only page-number constraint is
`z.number().int().positive()` — so every automation opportunity's
`sopReference.pageNumber` is a positive integer; no upper bound against
the extracted page count is enforced anywhere. -/
theorem analyzePdf_reports_positive_pages (env : AnalyzeEnv) (r : AnalysisReport)
    (h : analyzePdfModel env = .ok r) :
    r = env.modelData ∧ reportValid r = true
    ∧ ∀ o ∈ r.detailedAnalysis.automationOpportunities,
        0 < o.sopReference.pageNumber := by
  have hv : validateReport env.modelData = .ok r := by
    simp only [analyzePdfModel] at h
    repeat split at h
    all_goals first
      | exact h
      | exact absurd h (by intro hc; injection hc)
  unfold validateReport at hv
  split at hv
  case isTrue hvalid =>
    injection hv with hr
    subst hr
    refine ⟨rfl, hvalid, ?_⟩
    intro o ho
    have hall := (Bool.and_eq_true _ _).mp hvalid |>.2
    have := List.all_eq_true.mp hall o ho
    have hpos := (Bool.and_eq_true _ _).mp ((Bool.and_eq_true _ _).mp this).1 |>.1
    exact of_decide_eq_true hpos
  case isFalse => exact absurd hv (by intro hc; injection hc)

/-- Witness for C4 (amended): the report returned for `envC4` carries a
positive page number in its only opportunity. -/
theorem analyzePdf_reports_positive_pages_witness :
    0 < oppPage7.sopReference.pageNumber :=
  (analyzePdf_reports_positive_pages envC4 reportPage7 (by decide)).2.2 oppPage7
    (by decide)

/-- Counterexample for C4 as stated: `envC4`'s document has one page, yet
the report citing page 7 passes schema validation and is returned. -/
theorem analyzePdf_page_bound_counterexample :
    analyzePdfModel envC4 = .ok reportPage7
    ∧ ∀ o ∈ reportPage7.detailedAnalysis.automationOpportunities,
        (envC4.pages.length : Int) < o.sopReference.pageNumber := by
  constructor
  · decide
  · decide

theorem buildPrompt_of_fits {pages : List Page} {ctxSize nPredict : Nat}
    (h : (promptAssembly pages).length ≤ maxPromptChars ctxSize nPredict) :
    buildPrompt pages ctxSize nPredict = promptAssembly pages := by
  simp [buildPrompt, h]

theorem buildPrompt_of_truncates {pages : List Page} {ctxSize nPredict : Nat}
    (h : maxPromptChars ctxSize nPredict < (promptAssembly pages).length) :
    buildPrompt pages ctxSize nPredict
      = (promptAssembly pages).take (7 * maxPromptChars ctxSize nPredict / 10)
          ++ truncationMarker
          ++ (promptAssembly pages).drop
              ((promptAssembly pages).length - 3 * maxPromptChars ctxSize nPredict / 10) := by
  have hnle : ¬ (promptAssembly pages).length ≤ maxPromptChars ctxSize nPredict := by omega
  simp [buildPrompt, hnle]

theorem budget_div_sum_le (B : Nat) : 7 * B / 10 + 3 * B / 10 ≤ B := by
  have hx := Nat.div_mul_le_self (7 * B) 10
  have hy := Nat.div_mul_le_self (3 * B) 10
  omega

theorem buildPrompt_truncation_length {pages : List Page} {ctxSize nPredict : Nat}
    (h : maxPromptChars ctxSize nPredict < (promptAssembly pages).length) :
    (buildPrompt pages ctxSize nPredict).length
      = 7 * maxPromptChars ctxSize nPredict / 10
        + 3 * maxPromptChars ctxSize nPredict / 10 + truncationMarker.length := by
  have h7 : 7 * maxPromptChars ctxSize nPredict / 10 ≤ (promptAssembly pages).length := by
    have := budget_div_sum_le (maxPromptChars ctxSize nPredict)
    omega
  have h3 : 3 * maxPromptChars ctxSize nPredict / 10 ≤ (promptAssembly pages).length := by
    have := budget_div_sum_le (maxPromptChars ctxSize nPredict)
    omega
  rw [buildPrompt_of_truncates h]
  simp only [List.length_append, List.length_take, List.length_drop]
  rw [Nat.min_eq_left h7]
  omega

/-- Claim C5 (amended): `buildPrompt` returns the assembly unchanged when
it fits the character budget `maxPromptChars = 4 · max(512, ctxSize −
nPredict − 256)`; when the assembly exceeds the budget it returns the first
`⌊0.7·B⌋` characters and the last `⌊0.3·B⌋` characters of the assembly
verbatim around an inserted `[TRUNCATED TO FIT CONTEXT]` marker — so the
truncated output's length is `⌊0.7·B⌋ + ⌊0.3·B⌋` plus the 30 marker and
separator characters, which exceeds the budget by up to 30 and is bounded
by `B + 30`, not by `B` as the claim states. -/
theorem buildPrompt_budget (pages : List Page) (ctxSize nPredict : Nat) :
    ((promptAssembly pages).length ≤ maxPromptChars ctxSize nPredict →
        buildPrompt pages ctxSize nPredict = promptAssembly pages)
    ∧ (maxPromptChars ctxSize nPredict < (promptAssembly pages).length →
        buildPrompt pages ctxSize nPredict
          = (promptAssembly pages).take (7 * maxPromptChars ctxSize nPredict / 10)
              ++ truncationMarker
              ++ (promptAssembly pages).drop
                  ((promptAssembly pages).length - 3 * maxPromptChars ctxSize nPredict / 10)
        ∧ (buildPrompt pages ctxSize nPredict).length
            = 7 * maxPromptChars ctxSize nPredict / 10
              + 3 * maxPromptChars ctxSize nPredict / 10 + truncationMarker.length
        ∧ (buildPrompt pages ctxSize nPredict).length
            ≤ maxPromptChars ctxSize nPredict + truncationMarker.length
        ∧ ∃ l r, buildPrompt pages ctxSize nPredict = l ++ truncationMarker ++ r) := by
  constructor
  · exact buildPrompt_of_fits
  · intro h
    refine ⟨buildPrompt_of_truncates h, buildPrompt_truncation_length h, ?_, ?_⟩
    · rw [buildPrompt_truncation_length h]
      have := budget_div_sum_le (maxPromptChars ctxSize nPredict)
      omega
    · exact ⟨_, _, buildPrompt_of_truncates h⟩

theorem promptAssembly_pagesC5_length :
    (promptAssembly pagesC5).length = promptHeader.length + 2116 := by
  have h2 : (pageSection ⟨1, ⟨List.replicate 2100 'a'⟩⟩).length = 2116 := by
    show ("\n--- PAGE " ++ toString (1 : Nat) ++ (" ---\n" ++ (⟨List.replicate 2100 'a'⟩ : String))).length = 2116
    simp only [String.length_append]
    rw [show ("\n--- PAGE " : String).length = 10 from rfl,
      show (toString (1 : Nat)).length = 1 from rfl,
      show (" ---\n" : String).length = 5 from rfl,
      show (⟨List.replicate 2100 'a'⟩ : String).length = 2100 from by
        rw [String.length_mk, List.length_replicate]]
  show (promptHeader ++ String.join (pagesC5.map pageSection)).length
    = promptHeader.length + 2116
  rw [String.length_append]
  have h3 : (String.join (pagesC5.map pageSection)).length = 2116 := by
    show ("" ++ pageSection ⟨1, ⟨List.replicate 2100 'a'⟩⟩).length = 2116
    rw [String.length_append, show ("" : String).length = 0 from rfl, Nat.zero_add]
    exact h2
  rw [h3]

/-- Witness for C5 (amended): at `ctxSize = 512`, `nPredict = 0` the budget
is the floor value 2048; `pagesC5` overflows it and the truncated output
measures exactly `1433 + 614 + 30 = 2077` characters. -/
theorem buildPrompt_budget_witness :
    (buildPrompt pagesC5 512 0).length = 2077 := by
  have hB : maxPromptChars 512 0 = 2048 := by decide
  have hBL : maxPromptChars 512 0 < (promptAssembly pagesC5).length := by
    rw [hB, promptAssembly_pagesC5_length]; omega
  have h := ((buildPrompt_budget pagesC5 512 0).2 hBL).2.1
  rw [h, hB, show truncationMarker.length = 30 from rfl]

/-- Counterexample for C5 as stated: with `ctxSize = 512`, `nPredict = 0`
the computed budget is 2048 characters, yet the truncated prompt for
`pagesC5` is 2077 characters long — the inserted marker pushes the output
past the budget. -/
theorem buildPrompt_exceeds_budget :
    maxPromptChars 512 0 = 2048
    ∧ 2048 < (buildPrompt pagesC5 512 0).length := by
  have hB : maxPromptChars 512 0 = 2048 := by decide
  refine ⟨hB, ?_⟩
  have hBL : maxPromptChars 512 0 < (promptAssembly pagesC5).length := by
    rw [hB, promptAssembly_pagesC5_length]; omega
  rw [buildPrompt_truncation_length hBL, hB,
    show truncationMarker.length = 30 from rfl]
  norm_num

theorem findSub_brace_append :
    ∀ {pre rest : List Char}, '{' ∉ pre → rest.head? = some '{' →
      idxOf (pre ++ rest) '{' = some pre.length
  | [], rest, _, hhead => by
    cases rest with
    | nil => simp at hhead
    | cons c t =>
      have hc : c = '{' := by simpa using hhead
      subst hc
      simp [idxOf, findSub, matchesAt, charEq]
  | p :: ps, rest, hpre, hhead => by
    have hp : p ≠ '{' := fun hp => hpre (hp ▸ List.mem_cons_self p ps)
    have hps : '{' ∉ ps := fun hm => hpre (List.mem_cons_of_mem p hm)
    have ih := @findSub_brace_append ps rest hps hhead
    simp only [idxOf] at ih ⊢
    simp [List.cons_append, findSub, matchesAt, charEq, Ne.symm hp, hp, ih]

theorem scanClose_append :
    ∀ (l r : List Char) (d : Int) (s e : Bool) (i j : Nat),
      scanClose l d s e i = some j → scanClose (l ++ r) d s e i = some j
  | [], _, _, _, _, _, _, h => by simp [scanClose] at h
  | c :: t, r, d, s, e, i, j, h => by
    simp only [scanClose, List.cons_append] at h ⊢
    split_ifs at h ⊢ <;>
      first
        | exact h
        | exact scanClose_append t r _ _ _ _ _ h

/-- Claim C6: `extractJsonObject` scans from the first `'{'` with a depth
counter that treats the contents of double-quoted string literals
(including escape sequences) as non-structural and returns the slice ending
at the close brace reaching depth zero — so a balanced object is recovered
in full even when braces occur inside string values, regardless of
surrounding chatter; and when the scan finds no balanced close it falls
back to the slice from the first `'{'` to the last `'}'` (when that slice
is non-degenerate) instead of failing. -/
theorem extractJson_depth_tracked (pre obj post source : List Char)
    (start last : Nat) :
    (stripFence (pre ++ obj ++ post) = pre ++ obj ++ post →
      '{' ∉ pre →
      obj.head? = some '{' →
      scanClose obj 0 false false 0 = some (obj.length - 1) →
      extractJsonObject (pre ++ obj ++ post) = .ok obj)
    ∧ (stripFence source = source →
      idxOf source '{' = some start →
      scanClose (source.drop start) 0 false false 0 = none →
      lastIdxOf source '}' = some last →
      start < last →
      extractJsonObject source = .ok ((source.drop start).take (last - start + 1))) := by
  constructor
  · intro hsf hpre hhead hscan
    have hobj_ne : obj ≠ [] := by cases obj <;> simp_all
    have hhead2 : (obj ++ post).head? = some '{' := by
      cases obj with
      | nil => simp at hhead
      | cons c t => simpa using hhead
    have hidx : idxOf (pre ++ obj ++ post) '{' = some pre.length := by
      rw [List.append_assoc]
      exact findSub_brace_append hpre hhead2
    have hdrop : (pre ++ obj ++ post).drop pre.length = obj ++ post := by
      rw [List.append_assoc]
      exact List.drop_left _ _
    have hscan2 : scanClose (obj ++ post) 0 false false 0 = some (obj.length - 1) :=
      scanClose_append _ _ _ _ _ _ _ hscan
    have hlen : obj.length - 1 + 1 = obj.length := by
      have := List.length_pos.mpr hobj_ne
      omega
    simp only [extractJsonObject]
    rw [hsf]
    simp only [hidx, hdrop, hscan2, hlen]
    simp [List.take_left]
  · intro hsf hidx hscan hlast hlt
    simp only [extractJsonObject]
    rw [hsf]
    simp only [hidx, hscan, hlast]
    rw [if_pos hlt]

/-- Witness for C6: the spec's own example `{"a": "{not json}"}` embedded
in chatter is recovered in full (the scan does not stop at the inner
`'}'`), and an unterminated-string source falls back to the
first-`'{'`-to-last-`'}'` slice. -/
theorem extractJson_depth_tracked_witness :
    extractJsonObject (preC6 ++ objC6 ++ postC6) = .ok objC6
    ∧ extractJsonObject srcC6Fallback
        = .ok ((srcC6Fallback.drop 0).take (23 - 0 + 1)) := by
  constructor
  · exact (extractJson_depth_tracked preC6 objC6 postC6 [] 0 0).1
      (by decide) (by decide) (by decide) (by decide)
  · exact (extractJson_depth_tracked [] [] [] srcC6Fallback 0 23).2
      (by decide) (by decide) (by decide) (by decide) (by decide)

theorem applyLoop_ok_iff (env : UpdEnv) :
    ∀ (ts : List UpdFile) (disk : String → Option String) (dls : List String),
      (applyLoop env ts disk dls).1 = .ok ()
        ↔ ∀ t ∈ ts,
            (env.fetch (updFileUrl env.remote.baseUrl t)).map env.hash = some t.sha256
  | [], disk, dls => by simp [applyLoop]
  | t :: ts, disk, dls => by
    simp only [applyLoop]
    cases hf : env.fetch (updFileUrl env.remote.baseUrl t) with
    | none => simp [hf]
    | some content =>
      dsimp only
      by_cases hh : env.hash content ≠ t.sha256
      · rw [if_pos hh]
        simp [hf, hh]
      · rw [if_neg hh]
        push_neg at hh
        rw [applyLoop_ok_iff env ts _ _]
        simp [hf, hh]

theorem applyLoop_downloads_ok (env : UpdEnv) :
    ∀ (ts : List UpdFile) (disk : String → Option String) (dls : List String),
      (applyLoop env ts disk dls).1 = .ok () →
      (applyLoop env ts disk dls).2.2 = dls ++ ts.map (·.path)
  | [], disk, dls => by simp [applyLoop]
  | t :: ts, disk, dls => by
    intro hok
    simp only [applyLoop] at hok ⊢
    cases hf : env.fetch (updFileUrl env.remote.baseUrl t) with
    | none => simp [hf] at hok
    | some content =>
      dsimp only
      by_cases hh : env.hash content ≠ t.sha256
      · simp [hf, hh] at hok
      · simp only [hf] at hok
        rw [if_neg hh] at hok ⊢
        rw [applyLoop_downloads_ok env ts _ _ hok]
        simp

theorem applyLoop_downloads_sub (env : UpdEnv) :
    ∀ (ts : List UpdFile) (disk : String → Option String) (dls : List String),
      ∀ p ∈ (applyLoop env ts disk dls).2.2, p ∈ dls ∨ p ∈ ts.map (·.path)
  | [], disk, dls => by simp [applyLoop]
  | t :: ts, disk, dls => by
    intro p hp
    simp only [applyLoop] at hp
    cases hf : env.fetch (updFileUrl env.remote.baseUrl t) with
    | none =>
      simp only [hf] at hp
      exact Or.inl hp
    | some content =>
      simp only [hf] at hp
      by_cases hh : env.hash content ≠ t.sha256
      · rw [if_pos hh] at hp
        simp at hp
        rcases hp with hp | hp
        · exact Or.inl hp
        · exact Or.inr (by simp [hp])
      · rw [if_neg hh] at hp
        rcases applyLoop_downloads_sub env ts _ _ p hp with hmem | hmem
        · rcases List.mem_append.mp hmem with h1 | h1
          · exact Or.inl h1
          · exact Or.inr (by simp at h1; simp [h1])
        · exact Or.inr (by simp [hmem])

theorem applyLoop_disk_untouched (env : UpdEnv) :
    ∀ (ts : List UpdFile) (disk : String → Option String) (dls : List String)
      (q : String), q ∉ ts.map (·.path) →
      (applyLoop env ts disk dls).2.1 q = disk q
  | [], disk, dls, q => by simp [applyLoop]
  | t :: ts, disk, dls, q => by
    intro hq
    have hqt : q ≠ t.path := by
      intro h; exact hq (by simp [h])
    have hqts : q ∉ ts.map (·.path) := by
      intro h; exact hq (by simp; right; simpa using h)
    simp only [applyLoop]
    cases hf : env.fetch (updFileUrl env.remote.baseUrl t) with
    | none => rfl
    | some content =>
      dsimp only
      by_cases hh : env.hash content ≠ t.sha256
      · rw [if_pos hh]
        simp [diskWrite, hqt]
      · rw [if_neg hh]
        rw [applyLoop_disk_untouched env ts _ _ q hqts]
        simp [diskWrite, hqt]

theorem applyLoop_disk_written (env : UpdEnv) :
    ∀ (ts : List UpdFile) (disk : String → Option String) (dls : List String),
      (ts.map (·.path)).Nodup →
      (applyLoop env ts disk dls).1 = .ok () →
      ∀ t ∈ ts, ∃ c,
        env.fetch (updFileUrl env.remote.baseUrl t) = some c
        ∧ (applyLoop env ts disk dls).2.1 t.path = some c
        ∧ env.hash c = t.sha256
  | [], disk, dls => by simp
  | t :: ts, disk, dls => by
    intro hnd hok u hu
    have hnd2 : (ts.map (·.path)).Nodup := by simp at hnd; exact hnd.2
    have hhead : t.path ∉ ts.map (·.path) := by simp at hnd; simpa using hnd.1
    simp only [applyLoop] at hok ⊢
    cases hf : env.fetch (updFileUrl env.remote.baseUrl t) with
    | none => simp [hf] at hok
    | some content =>
      dsimp only
      by_cases hh : env.hash content ≠ t.sha256
      · simp [hf, hh] at hok
      · simp only [hf] at hok
        rw [if_neg hh] at hok ⊢
        push_neg at hh
        rcases List.mem_cons.mp hu with hu | hu
        · subst hu
          refine ⟨content, hf, ?_, hh⟩
          rw [applyLoop_disk_untouched env ts _ _ u.path hhead]
          simp [diskWrite]
        · exact applyLoop_disk_written env ts _ _ hnd2 hok u hu

theorem applyUpdate_unfold (env : UpdEnv) :
    (applyOfflinePackUpdate env).result = (applyLoop env (updTasks env) env.disk []).1
    ∧ (applyOfflinePackUpdate env).disk = (applyLoop env (updTasks env) env.disk []).2.1
    ∧ (applyOfflinePackUpdate env).downloads = (applyLoop env (updTasks env) env.disk []).2.2
    ∧ (applyOfflinePackUpdate env).manifestWritten
        = (if (applyLoop env (updTasks env) env.disk []).1 = .ok ()
            then some env.remote else none) := by
  rcases hl : applyLoop env (updTasks env) env.disk [] with ⟨res, dsk, dls⟩
  cases res with
  | ok u =>
    cases u
    simp [applyOfflinePackUpdate, hl]
  | error e =>
    simp [applyOfflinePackUpdate, hl]

/-- Claim C1 (amended): in `applyOfflinePackUpdate` every downloaded file
is hash-verified right after download, a mismatch (or failed download)
aborts the whole update with an error, and no local manifest is written for
an aborted run.  `updateOfflineResources`, by contrast, performs no hash
verification at all (see the counterexample theorem). -/
theorem applyUpdate_integrity (env : UpdEnv) (t : UpdFile)
    (ht : t ∈ updTasks env)
    (hbad : (env.fetch (updFileUrl env.remote.baseUrl t)).map env.hash ≠ some t.sha256) :
    (∃ e, (applyOfflinePackUpdate env).result = .error e)
    ∧ (applyOfflinePackUpdate env).manifestWritten = none := by
  have hne : (applyLoop env (updTasks env) env.disk []).1 ≠ .ok () := by
    intro hok
    exact hbad ((applyLoop_ok_iff env _ _ _).mp hok t ht)
  obtain ⟨hres, _, _, hman⟩ := applyUpdate_unfold env
  constructor
  · rcases hcase : (applyLoop env (updTasks env) env.disk []).1 with e | u
    · exact ⟨e, by rw [hres, hcase]⟩
    · cases u; exact absurd hcase hne
  · rw [hman, if_neg hne]

/-- Witness for C1 (amended): in `envC1` the single needed file downloads
with contents hashing to a value other than its manifest `sha256`; the run
errors out and writes no manifest. -/
theorem applyUpdate_integrity_witness :
    (∃ e, (applyOfflinePackUpdate envC1).result = .error e)
    ∧ (applyOfflinePackUpdate envC1).manifestWritten = none :=
  applyUpdate_integrity envC1 fileC1 (by decide) (by decide)

/-- Counterexample for C1 as stated: `updateOfflineResources` (the other
function the claim covers) downloads a component whose manifest entry
carries `sha256 = "sha-good"`, receives the bytes `"evil"`, performs no
verification, reports success, and writes a local manifest recording that
component — so a hash mismatch neither aborts the update nor prevents the
manifest write. -/
theorem updateOfflineResources_never_verifies :
    (updateOfflineResourcesModel 1 envC1Inst).result = .ok ()
    ∧ (updateOfflineResourcesModel 1 envC1Inst).destWrites = [("models/m.gguf", "evil")]
    ∧ (updateOfflineResourcesModel 1 envC1Inst).localManifestWritten
        = some { version := some "2",
                 components := [("model", componentRecord compC1)] } := by
  refine ⟨?_, ?_, ?_⟩ <;> decide

/-- Claim C3 (amended): `applyOfflinePackUpdate` downloads exactly the
files `checkOfflinePackUpdates` flags (absent locally, or whose on-disk
content hash differs from the manifest `sha256` — the shared criterion) and
no others; on a successful run the download list equals the flagged list,
and re-running against the resulting disk (no remote changes) flags nothing
and downloads nothing.  `updateOfflineResources`, by contrast, re-downloads
every applicable component unconditionally (see the counterexample). -/
theorem applyUpdate_downloads_exactly_flagged (env : UpdEnv) :
    (∀ p ∈ (applyOfflinePackUpdate env).downloads,
        p ∈ (checkOfflinePackUpdates env).filesToUpdate.map (·.path))
    ∧ ((applyOfflinePackUpdate env).result = .ok () →
        (applyOfflinePackUpdate env).downloads
          = (checkOfflinePackUpdates env).filesToUpdate.map (·.path))
    ∧ ((applyOfflinePackUpdate env).result = .ok () →
        ((env.remote.files.filter updFileValid).map (·.path)).Nodup →
        updTasks { env with disk := (applyOfflinePackUpdate env).disk } = []
        ∧ (applyOfflinePackUpdate
            { env with disk := (applyOfflinePackUpdate env).disk }).downloads = []) := by
  obtain ⟨hres, hdisk, hdls, hman⟩ := applyUpdate_unfold env
  have hflag : (checkOfflinePackUpdates env).filesToUpdate = updTasks env := rfl
  refine ⟨?_, ?_, ?_⟩
  · intro p hp
    rw [hdls] at hp
    rcases applyLoop_downloads_sub env _ _ _ p hp with h | h
    · simp at h
    · rw [hflag]; exact h
  · intro hok
    rw [hres] at hok
    rw [hdls, applyLoop_downloads_ok env _ _ _ hok, hflag]
    simp
  · intro hok hnodup
    rw [hres] at hok
    have htasknd : ((updTasks env).map (·.path)).Nodup := by
      refine List.Nodup.sublist ?_ hnodup
      exact (List.filter_sublist _).map _
    have htasks2 : updTasks { env with disk := (applyOfflinePackUpdate env).disk } = [] := by
      have : ∀ f ∈ env.remote.files.filter updFileValid,
          ¬ updFileNeedsUpdate { env with disk := (applyOfflinePackUpdate env).disk } f = true := by
        intro f hf
        by_cases hn : updFileNeedsUpdate env f = true
        · have hft : f ∈ updTasks env := List.mem_filter.mpr ⟨hf, hn⟩
          obtain ⟨c, hfc, hfd, hfh⟩ :=
            applyLoop_disk_written env _ env.disk [] htasknd hok f hft
          simp only [updFileNeedsUpdate]
          rw [hdisk, hfd]
          simp [hfh]
        · have hnotin : f.path ∉ (updTasks env).map (·.path) := by
            intro hin
            rcases List.mem_map.mp hin with ⟨g, hg, hgp⟩
            have hgf : g = f := by
              have hgv : g ∈ env.remote.files.filter updFileValid :=
                List.mem_of_mem_filter hg
              exact List.inj_on_of_nodup_map hnodup hgv hf hgp
            rw [hgf] at hg
            exact hn (List.mem_filter.mp hg).2
          simp only [updFileNeedsUpdate]
          rw [hdisk, applyLoop_disk_untouched env _ _ _ _ hnotin]
          simpa only [updFileNeedsUpdate] using hn
      simp only [updTasks]
      rw [List.filter_eq_nil_iff]
      intro f hf
      exact this f hf
    refine ⟨htasks2, ?_⟩
    obtain ⟨_, _, hdls2, _⟩ :=
      applyUpdate_unfold { env with disk := (applyOfflinePackUpdate env).disk }
    rw [hdls2, htasks2]
    simp [applyLoop]

/-- Witness for C3 (amended): in `envC3` a successful run downloads exactly
the one flagged file and a second run downloads nothing. -/
theorem applyUpdate_downloads_exactly_flagged_witness :
    (applyOfflinePackUpdate envC3).result = .ok ()
    ∧ (applyOfflinePackUpdate envC3).downloads
        = (checkOfflinePackUpdates envC3).filesToUpdate.map (·.path)
    ∧ (applyOfflinePackUpdate
        { envC3 with disk := (applyOfflinePackUpdate envC3).disk }).downloads = [] :=
  ⟨by decide,
    (applyUpdate_downloads_exactly_flagged envC3).2.1 (by decide),
    ((applyUpdate_downloads_exactly_flagged envC3).2.2 (by decide) (by decide)).2⟩

/-- Counterexample for C3 as stated: in `envC3Inst` the local manifest
records the one component exactly as the remote manifest describes it, so
`checkOfflinePackUpdate` flags nothing to update — yet
`updateOfflineResources` downloads it anyway. -/
theorem updateOfflineResources_downloads_unflagged :
    (checkOfflinePackUpdate envC3Inst).componentsToUpdate = []
    ∧ (updateOfflineResourcesModel 1 envC3Inst).downloads = ["model"] := by
  constructor <;> decide

/-- Claim C2 (amended): `checkOfflinePackUpdate`'s `needsUpdate` flag is
false iff the pack is installed and the remote manifest has no version or
its version equals the locally recorded one — component metadata plays no
part in it.  Component differences surface only in `componentsToUpdate`,
which contains exactly the applicable valid components that are absent from
the local manifest or differ from their local record in url, sha256 or
version (under JavaScript strict inequality on the optional fields). -/
theorem checkUpdate_version_only (env : InstEnv) (remote : InstManifest)
    (hr : env.remote = some remote) :
    ((checkOfflinePackUpdate env).needsUpdate = false
      ↔ (env.installed = true
          ∧ (remote.version = none
              ∨ env.localManifest.bind (·.version) = remote.version)))
    ∧ (∀ c ∈ applicableComponents remote env.platformKey,
        componentValid c = true →
        (((applicableComponents remote env.platformKey).filter
            componentValid).map (·.name)).Nodup →
        (c.name ∈ (checkOfflinePackUpdate env).componentsToUpdate
          ↔ componentNeedsUpdate ((env.localManifest.map (·.components)).getD [])
              c = true)) := by
  constructor
  · simp only [checkOfflinePackUpdate, hr]
    cases hv : remote.version with
    | none => cases hi : env.installed <;> simp [hv, hi]
    | some v => cases hi : env.installed <;> simp [hv, hi]
  · intro c hc hcv hnodup
    simp only [checkOfflinePackUpdate, hr]
    constructor
    · intro hmem
      obtain ⟨c', hc', hname⟩ := List.mem_map.mp hmem
      have hc'f := List.mem_filter.mp hc'
      have hcvmem : c ∈ (applicableComponents remote env.platformKey).filter
          componentValid := List.mem_filter.mpr ⟨hc, hcv⟩
      have hcc : c' = c := List.inj_on_of_nodup_map hnodup hc'f.1 hcvmem hname
      rw [← hcc]
      exact hc'f.2
    · intro hneed
      exact List.mem_map.mpr
        ⟨c, List.mem_filter.mpr ⟨List.mem_filter.mpr ⟨hc, hcv⟩, hneed⟩, rfl⟩

/-- Witness for C2 (amended): in `envC2Inst` the flag is false (installed,
equal versions) while the url-changed component is flagged in
`componentsToUpdate`. -/
theorem checkUpdate_version_only_witness :
    (checkOfflinePackUpdate envC2Inst).needsUpdate = false
    ∧ compC2.name ∈ (checkOfflinePackUpdate envC2Inst).componentsToUpdate :=
  ⟨((checkUpdate_version_only envC2Inst remoteC2 rfl).1).mpr (by decide),
    ((checkUpdate_version_only envC2Inst remoteC2 rfl).2 compC2 (by decide)
      (by decide) (by decide)).mpr (by decide)⟩

/-- Counterexample for C2 as stated: in `envC2Inst` a component differs
from its local record in `url`, yet `needsUpdate` is false — refuting the
claimed equivalence between `updateAvailable` and exact component-metadata
agreement. -/
theorem checkUpdate_ignores_component_diffs :
    (checkOfflinePackUpdate envC2Inst).needsUpdate = false
    ∧ (checkOfflinePackUpdate envC2Inst).componentsToUpdate = ["model"] := by
  constructor <;> decide

/-- Claim C8 (amended): when the legacy full-pack archive lacks the
top-level `resources/` root, `installOfflineResources` fails with the
invalid-pack-format error, and the legacy zip path itself neither replaces
the destination nor writes anything into it — the destination state is
exactly whatever the preceding manifest-based update attempt left behind
(which is empty when that attempt failed before writing, but can be
non-empty: see the counterexample). -/
theorem installOfflineResources_invalid_pack (fuel : Nat) (env : InstEnv)
    (hinst : env.installed = false)
    (hupd : ∃ e, (updateOfflineResourcesModel fuel env).result = .error e)
    (hzip : ∃ z, env.zipFetch = some z)
    (hroot : env.zipHasResourcesRoot = false) :
    (installOfflineResourcesModel (fuel + 1) env).result
        = .error "Offline pack zip must contain a top-level resources/ folder."
    ∧ (installOfflineResourcesModel (fuel + 1) env).destWrites
        = (updateOfflineResourcesModel fuel env).destWrites
    ∧ (installOfflineResourcesModel (fuel + 1) env).destReplaced
        = (updateOfflineResourcesModel fuel env).destReplaced
    ∧ (installOfflineResourcesModel (fuel + 1) env).localManifestWritten
        = (updateOfflineResourcesModel fuel env).localManifestWritten := by
  obtain ⟨e, he⟩ := hupd
  obtain ⟨z, hz⟩ := hzip
  refine ⟨?_, ?_, ?_, ?_⟩ <;>
    simp [installOfflineResourcesModel, hinst, he, hz, hroot]

/-- Witness for C8 (amended): with a failed manifest fetch (no writes) and
an archive without the `resources/` root, the install fails with the
invalid-pack error and the destination has seen no writes at all. -/
theorem installOfflineResources_invalid_pack_witness :
    (installOfflineResourcesModel 2 envC8W).result
        = .error "Offline pack zip must contain a top-level resources/ folder."
    ∧ (installOfflineResourcesModel 2 envC8W).destWrites = [] := by
  have h := installOfflineResources_invalid_pack 1 envC8W rfl
    ⟨"Offline pack manifest fetch failed", by decide⟩ ⟨"zipbytes", rfl⟩ rfl
  exact ⟨h.1, h.2.1.trans (by decide)⟩

/-- Counterexample for C8 as stated: in `envC8Inst` the manifest-based
update attempt (which `installOfflineResources` tries first) writes one
component into the destination directory and then fails; the legacy archive
lacks `resources/`, the install fails with the invalid-pack error — but
the destination directory is *not* left unchanged. -/
theorem installOfflineResources_partial_writes :
    (installOfflineResourcesModel 2 envC8Inst).result
        = .error "Offline pack zip must contain a top-level resources/ folder."
    ∧ (installOfflineResourcesModel 2 envC8Inst).destWrites
        = [("models/m.gguf", "modelbytes")] := by
  constructor <;> decide

end SopAnalyzer
